import Mathlib

/-!
Verification of the chat-session formatter (smyp).

This file gives a shallow embedding of the core pipeline of the repository:
the line classifier constants (`constants.js`), the segmenter
(`parseContent` in `scripts/lib/parsers.js`), the two mergers (the modular
`mergeSections`/`flushAgentContent` of `scripts/lib/parsers.js` and the
legacy `mergeSections` of the monolithic `scripts/format-chat-session.js`),
the idempotence gate of `processContent`, and the text transformers of
`transformers.js`.  All definitions are executable; stateful JS loops are
rendered as structural recursions with explicit state arguments.
-/

set_option maxRecDepth 8192

namespace Smyp

/-! ## String primitives

The JS string methods used by the program, defined by structural recursion
over the character list of the string so that every definition in this file
evaluates inside the kernel (`rfl`/`decide`). -/

/-- `a.startsWith(b)` — prefix test on characters. -/
def jsStartsWith (s pat : String) : Bool :=
  pat.data.isPrefixOf s.data

/-- `a.endsWith(b)` — suffix test on characters. -/
def jsEndsWith (s pat : String) : Bool :=
  pat.data.reverse.isPrefixOf s.data.reverse

/-- Drop the first `n` characters (`String.prototype.slice(n)`; also the
effect of `line.replace(prefix, '')` when `line` starts with `prefix`). -/
def jsDrop (s : String) (n : Nat) : String :=
  ⟨s.data.drop n⟩

/-- `a.trim()` — strip leading and trailing whitespace. -/
def jsTrim (s : String) : String :=
  ⟨((s.data.dropWhile Char.isWhitespace).reverse.dropWhile Char.isWhitespace).reverse⟩

/-- `a.trimEnd()` — strip trailing whitespace. -/
def jsTrimEnd (s : String) : String :=
  ⟨(s.data.reverse.dropWhile Char.isWhitespace).reverse⟩

/-- `parts.join(sep)` — Array.prototype.join. -/
def jsJoin (sep : String) (parts : List String) : String :=
  ⟨(List.intersperse sep.data (parts.map String.data)).flatten⟩

/-- Splitting a character list at each occurrence of a separator character,
mirroring `content.split('\n')` (the only separator the program splits on). -/
def splitOnChar (sep : Char) : List Char → List (List Char)
  | [] => [[]]
  | c :: t =>
    if c = sep then [] :: splitOnChar sep t
    else
      match splitOnChar sep t with
      | [] => [[c]]
      | p :: ps => (c :: p) :: ps

/-- `content.split('\n')`. -/
def jsSplitLines (s : String) : List String :=
  (splitOnChar '\n' s.data).map String.mk

/-- A parsed section, mirroring the plain JS objects
`{ type, content, actions?, raw }` built by `parseContent` and the mergers.
In JS the `actions` field is dynamically typed: on an `agent-action` section
produced by `parseContent` it holds raw action *lines* (strings), while on a
fused `agent-response` produced by a merger it holds whole action
*sections*.  The embedding splits that one dynamic field into `lineActions`
(the string payload) and `actions` (the section payload); every JS object
populates at most one of the two, the other stays `[]` (the JS `undefined`). -/
inductive Section where
  | mk (type : String) (content : List String) (lineActions : List String)
      (actions : List Section) (raw : String)

/-- The `type` field of a section. -/
def Section.type : Section → String
  | .mk t _ _ _ _ => t

/-- The `content` field of a section. -/
def Section.content : Section → List String
  | .mk _ c _ _ _ => c

/-- The string-valued `actions` field of an `agent-action` section. -/
def Section.lineActions : Section → List String
  | .mk _ _ la _ _ => la

/-- The section-valued `actions` field of a fused `agent-response` section. -/
def Section.actions : Section → List Section
  | .mk _ _ _ a _ => a

/-- The `raw` field of a section. -/
def Section.raw : Section → String
  | .mk _ _ _ _ r => r

instance : Inhabited Section := ⟨.mk "" [] [] [] ""⟩

/-- MARKERS.PROCESSED from `constants.js`. -/
def processedMarker : String := "<!-- formatted-chat-session -->"

/-- Placeholder string interpolation of `flushAgentContent` and of the
legacy merger: the template literal
`__ACTION_PLACEHOLDER_(dollar-brace)n(close-brace)__`. -/
def placeholderString (n : Nat) : String :=
  ⟨"__ACTION_PLACEHOLDER_".data ++ (toString n).data ++ "__".data⟩

/-! ## Line classifier: the regex constants of `constants.js`

Each JS regular expression in `ACTION_PATTERNS`, `NOISE_PATTERNS` and
`IGNORE_USER_PROMPTS` is translated to a boolean predicate on the line. -/

/-- Helper for the two patterns of shape
`(caret)Word (brackets)(paren)file:(slashes)(.+?)(paren)`: after the fixed
prefix, the lazy group needs at least one character followed by a closing
parenthesis, i.e. the remainder has a `)` at some index at least 1. -/
def lazyPathThenParen (rest : String) : Bool :=
  match rest.data with
  | [] => false
  | _ :: t => t.contains ')'

/-- Pattern `Read (brackets)(paren)file:...` anchored at line start. -/
def isReadAction (l : String) : Bool :=
  jsStartsWith l "Read [](file://" && lazyPathThenParen (jsDrop l 15)

/-- Pattern `Created (brackets)(paren)file:...` anchored at line start. -/
def isCreatedFileAction (l : String) : Bool :=
  jsStartsWith l "Created [](file://" && lazyPathThenParen (jsDrop l 18)

/-- Consume one or more leading decimal digits, returning the rest,
mirroring a greedy digit-plus in a JS regex. -/
def dropDigits1 (l : List Char) : Option (List Char) :=
  match l with
  | [] => none
  | c :: rest => if c.isDigit then some (rest.dropWhile Char.isDigit) else none

/-- Pattern `Completed (paren)digits/digits(paren)` anchored at line start. -/
def isCompletedAction (l : String) : Bool :=
  jsStartsWith l "Completed (" &&
    (match dropDigits1 (jsDrop l 11).data with
     | none => false
     | some r1 =>
       match r1 with
       | '/' :: r2 =>
         (match dropDigits1 r2 with
          | none => false
          | some r3 => match r3 with
            | ')' :: _ => true
            | _ => false)
       | _ => false)

/-- Pattern `Created digits todos` anchored at line start. -/
def isCreatedTodosAction (l : String) : Bool :=
  jsStartsWith l "Created " &&
    (match dropDigits1 (jsDrop l 8).data with
     | none => false
     | some r => " todos".data.isPrefixOf r)

/-- ACTION_PATTERNS of `constants.js`: the nine anchored patterns, tested on
the raw line as in `ACTION_PATTERNS.some(pattern => pattern.test(line))`. -/
def isActionLine (l : String) : Bool :=
  isReadAction l ||
  isCreatedFileAction l ||
  jsStartsWith l "Using \"Replace String in File\"" ||
  jsStartsWith l "Searched text for" ||
  jsStartsWith l "Updated todo list" ||
  isCompletedAction l ||
  jsStartsWith l "Made changes." ||
  jsStartsWith l "Summarized conversation history" ||
  isCreatedTodosAction l

/-- NOISE_PATTERNS of `constants.js`: both regexes are anchored at both
ends, hence exact equality; `parseContent` tests them on `line.trim()`. -/
def isNoiseLine (trimmed : String) : Bool :=
  trimmed == "Continue to iterate?" || trimmed == "[object Object]"

/-- IGNORE_USER_PROMPTS of `constants.js`, tested on the captured prompt
payload. -/
def isIgnoredPrompt (payload : String) : Bool :=
  jsStartsWith payload "@agent Continue:" || jsStartsWith payload "Continue:"

/-! ## Segmenter: `parseContent` of `scripts/lib/parsers.js`

The JS loop carries mutable `sections`, `currentSection`, `inCodeBlock`,
`inAction`; here the loop becomes a structural recursion over the line list
with the same state passed explicitly, emitting closed sections in order. -/

/-- Close a section as `parseContent` does before pushing:
`currentSection.raw = currentSection.content.join('\n')`. -/
def closeRaw (s : Section) : Section :=
  .mk s.type s.content s.lineActions s.actions (jsJoin "\n" s.content)

/-- Close an `agent-action` section as the end-of-action branch does:
`content = actions; raw = actions.join('\n')`. -/
def closeAction (s : Section) : Section :=
  .mk s.type s.lineActions s.lineActions s.actions (jsJoin "\n" s.lineActions)

/-- Append a line to the current section's `content`. -/
def pushContent (s : Section) (l : String) : Section :=
  .mk s.type (s.content ++ [l]) s.lineActions s.actions s.raw

/-- Append an action line to the current section's `actions` accumulator. -/
def pushAction (s : Section) (l : String) : Section :=
  .mk s.type s.content (s.lineActions ++ [l]) s.actions s.raw

/-- One fresh section, as the object literals in `parseContent`. -/
def freshSection (type : String) (content : List String) : Section :=
  .mk type content [] [] ""

/-- The loop body of `parseContent`: `lines` are the remaining lines, `cur`
is `currentSection`, `inCB` is `inCodeBlock`, `inAction` as in the JS.  At
end of input the current section is pushed when its `content` is non-empty
(note: the JS tests `content.length`, not the action accumulator). -/
def parseLines (uid : String) : List String → Section → Bool → Bool → List Section
  | [], cur, _, _ =>
    if cur.content.length > 0 then [closeRaw cur] else []
  | l :: rest, cur, inCB, inAction =>
    if isNoiseLine (jsTrim l) then
      parseLines uid rest cur inCB inAction
    else if jsStartsWith l "```" then
      parseLines uid rest (pushContent cur l) (!inCB) inAction
    else if inCB then
      parseLines uid rest (pushContent cur l) inCB inAction
    else if jsStartsWith l (uid ++ ":") then
      let payload := jsTrim (jsDrop l (uid ++ ":").length)
      if isIgnoredPrompt payload then
        parseLines uid rest cur inCB inAction
      else
        (if cur.content.length > 0 then [closeRaw cur] else []) ++
          parseLines uid rest (freshSection "user-prompt" [payload]) inCB false
    else if jsStartsWith l "GitHub Copilot:" then
      (if cur.content.length > 0 then [closeRaw cur] else []) ++
        parseLines uid rest (freshSection "agent-response" [jsTrim (jsDrop l 15)]) inCB false
    else if isActionLine l && !inAction then
      (if cur.type == "agent-response" && cur.content.length > 0
        then [closeRaw cur] else []) ++
        parseLines uid rest (pushAction (.mk "agent-action" [] [] [] "") l) inCB true
    else if inAction then
      if isActionLine l then
        parseLines uid rest (pushAction cur l) inCB true
      else if jsTrim l == "" then
        parseLines uid rest cur inCB true
      else
        (if cur.lineActions.length > 0 then [closeAction cur] else []) ++
          parseLines uid rest (freshSection "agent-response" [l]) inCB false
    else
      parseLines uid rest (pushContent cur l) inCB inAction

/-- The segmenter `parseContent(content, userIdentifier)` of
`scripts/lib/parsers.js`. -/
def parseContent (content : String) (uid : String) : List Section :=
  parseLines uid (jsSplitLines content) (freshSection "unknown" []) false false

/-! ## Modular merger: `flushAgentContent` and `mergeSections` of
`scripts/lib/parsers.js`

The merger keeps a state object with `agentContent` (joined response texts)
and `agentActions` (whole action sections); `flushAgentContent` interleaves
the two lists by alternately popping one element of each. -/

/-- The text a merger extracts from a section:
`Array.isArray(content) ? content.join('\n') : content` (content is always
an array in sections built by `parseContent`). -/
def textOf (s : Section) : String :=
  jsJoin "\n" s.content

/-- The while-loop of `flushAgentContent`: each iteration pushes the next
pending content text (if any) and then the next placeholder (if any); the
second list is already the placeholder strings. -/
def interleave : List String → List String → List String
  | [], ys => ys
  | x :: xs, [] => x :: xs
  | x :: xs, y :: ys => x :: y :: interleave xs ys

/-- Placeholder strings `__ACTION_PLACEHOLDER_0__` ... for `m` pending
actions, in the order `flushAgentContent` generates them
(`fusedActions.length` at each push). -/
def placeholders (m : Nat) : List String :=
  (List.range m).map placeholderString

/-- The fused `agent-response` object that `flushAgentContent` pushes. -/
def fusedSection (agentContent : List String) (agentActions : List Section) : Section :=
  .mk "agent-response" (interleave agentContent (placeholders agentActions.length))
    [] agentActions ""

/-- `flushAgentContent(merged, state)` of `scripts/lib/parsers.js`: a no-op
when both pending lists are empty, otherwise push one fused section. -/
def flushAgentContent (merged : List Section) (agentContent : List String)
    (agentActions : List Section) : List Section :=
  if agentContent.length == 0 && agentActions.length == 0 then merged
  else merged ++ [fusedSection agentContent agentActions]

/-- The for-loop of the modular `mergeSections`, with the `merged` array and
the state fields `agentContent`/`agentActions` passed explicitly. -/
def mergeGo : List Section → List Section → List String → List Section → List Section
  | [], merged, ac, aa => flushAgentContent merged ac aa
  | s :: rest, merged, ac, aa =>
    if s.type == "user-prompt" then
      mergeGo rest (flushAgentContent merged ac aa ++ [s]) [] []
    else if s.type == "agent-response" then
      mergeGo rest merged (ac ++ [textOf s]) aa
    else if s.type == "agent-action" then
      mergeGo rest merged ac (aa ++ [s])
    else
      mergeGo rest merged ac aa

/-- The modular `mergeSections(sections)` of `scripts/lib/parsers.js`. -/
def mergeSections (sections : List Section) : List Section :=
  mergeGo sections [] [] []

/-! ## Legacy merger: `mergeSections` of the monolithic
`scripts/format-chat-session.js`

The JS is a while-loop with an inner collection loop; the embedding is a
single left-to-right pass whose state records whether a `user-prompt` has
been seen and, if so, the group of sections collected since it (`none` maps
to the top of the outer loop, `some (u, grp)` to the inner loop collecting
`agentContent` for prompt `u`). -/

/-- The fused body of the legacy merger: the for-loop over the collected
group pushing response texts and placeholders in encounter order, `k` being
`fusedActions.length` so far. -/
def legacyBody : List Section → Nat → List String
  | [], _ => []
  | s :: rest, k =>
    if s.type == "agent-response" then textOf s :: legacyBody rest k
    else if s.type == "agent-action" then placeholderString k :: legacyBody rest (k + 1)
    else legacyBody rest k

/-- The fused `agent-response` object the legacy merger pushes for a
non-empty collected group. -/
def legacyFused (grp : List Section) : Section :=
  .mk "agent-response" (legacyBody grp 0) []
    (grp.filter (fun s => s.type == "agent-action")) ""

/-- What the legacy merger emits for one prompt and its collected group:
the prompt, then the fused section when the group is non-empty. -/
def legacyEmit (u : Section) (grp : List Section) : List Section :=
  if grp.length == 0 then [u] else [u, legacyFused grp]

/-- The legacy merge loop.  State `none`: at the top of the outer while
loop; state `some (u, grp)`: inside the inner loop collecting the sections
following prompt `u`. -/
def legacyGo : List Section → Option (Section × List Section) → List Section
  | [], none => []
  | [], some (u, grp) => legacyEmit u grp
  | s :: rest, none =>
    if s.type == "user-prompt" then legacyGo rest (some (s, []))
    else s :: legacyGo rest none
  | s :: rest, some (u, grp) =>
    if s.type == "user-prompt" then legacyEmit u grp ++ legacyGo rest (some (s, []))
    else legacyGo rest (some (u, grp ++ [s]))

/-- The legacy `mergeSections(sections)` of
`scripts/format-chat-session.js` (identical in `src/unnamed/part_000`). -/
def legacyMergeSections (sections : List Section) : List Section :=
  legacyGo sections none

/-! ## Idempotence gate: `isAlreadyProcessed` and the head of
`processContent` in `scripts/format-chat-session.js` -/

/-- Substring test at the character level: `pat` occurs contiguously in the
scanned list (the semantics of `String.prototype.includes`). -/
def containsSub (pat : List Char) : List Char → Bool
  | [] => pat.isPrefixOf ([] : List Char)
  | c :: t => pat.isPrefixOf (c :: t) || containsSub pat t

/-- `isAlreadyProcessed(content)` of `scripts/lib/parsers.js`:
`content.includes(MARKERS.PROCESSED)`. -/
def isAlreadyProcessed (content : String) : Bool :=
  containsSub processedMarker.data content.data

/-- The frontmatter-closing token the strip regex looks for after the lazy
group: three dashes followed by two newlines. -/
def fmClose : List Char := ['-', '-', '-', '\n', '\n']

/-- Index of the first occurrence of `fmClose` in a character list, if any
(the position at which the lazy group of the regex stops). -/
def findFmClose : List Char → Option Nat
  | [] => none
  | c :: t =>
    if fmClose.isPrefixOf (c :: t) then some 0
    else (findFmClose t).map (· + 1)

/-- The frontmatter strip of `processContent`:
`content.replace(start-anchored lazy dash regex, '')`.  The match must
begin with `---` at position 0; the lazy `[\s\S]*?` then stops at the
first later occurrence of `---` followed by a blank line; when no such
occurrence exists the replace is a no-op. -/
def stripLeadingFrontmatter (s : String) : String :=
  match s.data with
  | '-' :: '-' :: '-' :: rest =>
    (match findFmClose rest with
     | some j => ⟨rest.drop (j + 5)⟩
     | none => s)
  | _ => s

/-- The gate and frontmatter handling at the head of `processContent`
(`scripts/format-chat-session.js`).  The rest of `processContent`
(extractProjectRoot, extractUserIdentifier, parseContent, mergeSections,
formatting) only ever runs on the content the gate hands over; it is
abstracted as the `core` argument so that gate facts hold for the whole
family of downstream pipelines. -/
def processContent (core : String → String) (content : String) (force : Bool) : String :=
  if isAlreadyProcessed content && !force then content
  else
    core (if isAlreadyProcessed content && force
          then stripLeadingFrontmatter content else content)

/-! ## Text transformers: `transformers.js` (`src/unnamed/part_001`) -/

/-- The LineContext object `transformLines` hands to each transformer. -/
structure LineContext where
  inCodeBlock : Bool
  index : Nat
  prevLine : String
  nextLine : String
  trimmedLine : String
  prevTrimmed : String
  nextTrimmed : String

/-- `shiftHeadingLevel` of `transformers.js`: demote a markdown heading of
level 1 to 6 by one level, capped at 6, skipped inside code blocks.  The JS
matches `(up to six hashes) space (rest)` on the trimmed line; the heading
prefix of the trimmed line is hashes followed by one whitespace, and the
captured text is the remainder after that whitespace. -/
def shiftHeadingLevel (line : String) (ctx : LineContext) : String :=
  if ctx.inCodeBlock then line
  else
    let hashes := ctx.trimmedLine.data.takeWhile (· == '#')
    let n := hashes.length
    let afterHashes := ctx.trimmedLine.data.drop n
    let wsOk : Bool := match afterHashes with
      | c :: _ => c.isWhitespace
      | [] => false
    if 1 ≤ n ∧ n ≤ 6 ∧ wsOk = true then
      String.mk (List.replicate (min (n + 1) 6) '#') ++ " " ++
        ⟨afterHashes.dropWhile Char.isWhitespace⟩
    else line

/-- `addLineBreak` of `transformers.js`: append two spaces to a plain prose
line whose successor is plain prose, outside code blocks. -/
def addLineBreak (line : String) (ctx : LineContext) : String :=
  if ctx.inCodeBlock then line
  else if ctx.trimmedLine == "" ||
      jsStartsWith line "#" ||
      jsStartsWith line "- " ||
      jsStartsWith line "* " ||
      (match line.data with
       | c :: rest => c.isDigit && ((rest.dropWhile Char.isDigit).take 2 == ['.', ' '])
       | [] => false) ||
      line.data.contains '|' ||
      jsStartsWith ctx.trimmedLine "<!--" ||
      jsStartsWith line "   " ||
      jsStartsWith line "\t" then line
  else
    let isNextLineEmpty := ctx.nextTrimmed == ""
    let isNextLineStructure :=
      jsStartsWith ctx.nextTrimmed "#" ||
      jsStartsWith ctx.nextTrimmed "- " ||
      jsStartsWith ctx.nextTrimmed "* " ||
      (match ctx.nextTrimmed.data with
       | c :: rest => c.isDigit && ((rest.dropWhile Char.isDigit).take 2 == ['.', ' '])
       | [] => false) ||
      ctx.nextTrimmed.data.contains '|' ||
      jsStartsWith ctx.nextTrimmed "```" ||
      jsStartsWith ctx.nextTrimmed "   " ||
      jsStartsWith ctx.nextTrimmed "\t"
    if !isNextLineEmpty && !isNextLineStructure then line ++ "  " else line

/-- `removeTrailingSpace` of `transformers.js`: always strip a single
trailing space; strip a multiple trailing space only before a blank line.
Note the function never consults `ctx.inCodeBlock`. -/
def removeTrailingSpace (line : String) (ctx : LineContext) : String :=
  if !(jsEndsWith line " ") then line
  else if jsEndsWith line " " && !(jsEndsWith line "  ") then jsTrimEnd line
  else if jsEndsWith line "  " && ctx.nextTrimmed == "" then jsTrimEnd line
  else line

/-- The fence-toggle step of `transformLines`: the tracked `inCodeBlock`
flips on a line whose trimmed form starts with a triple backtick. -/
def fenceToggle (inCB : Bool) (l : String) : Bool :=
  if jsStartsWith (jsTrim l) "```" then !inCB else inCB

/-- The map body of `transformLines`: walk the line list carrying the
index, the previous original line and the fence toggle; the toggle flips
*before* the transformers see the context, exactly as in the JS. -/
def transformLinesList (fs : List (String → LineContext → String)) :
    List String → Nat → String → Bool → List String
  | [], _, _, _ => []
  | l :: rest, idx, prev, inCB =>
    let next := match rest with
      | [] => ""
      | n :: _ => n
    let inCB' := fenceToggle inCB l
    let ctx : LineContext :=
      ⟨inCB', idx, prev, next, jsTrim l, jsTrim prev, jsTrim next⟩
    fs.foldl (fun acc f => f acc ctx) l :: transformLinesList fs rest (idx + 1) l inCB'

/-- `transformLines(text, transformers)` of `transformers.js`. -/
def transformLines (text : String) (fs : List (String → LineContext → String)) : String :=
  jsJoin "\n" (transformLinesList fs (jsSplitLines text) 0 "" false)

/-- `shiftHeadingLevels` of `transformers.js`. -/
def shiftHeadingLevels (text : String) : String :=
  transformLines text [shiftHeadingLevel]

/-- `forceLineBreaks` of `transformers.js`. -/
def forceLineBreaks (text : String) : String :=
  transformLines text [addLineBreak]

/-- `removeTrailingSpaces` of `transformers.js`. -/
def removeTrailingSpaces (text : String) : String :=
  transformLines text [removeTrailingSpace]

/-- The scanner behind `cleanExcessiveLineBreaks`: the global replace of
runs of three or more newlines by two keeps the first two newlines of every
maximal run and drops the rest; `k` counts the newlines immediately
preceding the current character. -/
def cleanAux : Nat → List Char → List Char
  | _, [] => []
  | k, c :: rest =>
    if c = '\n' then
      if k ≥ 2 then cleanAux (k + 1) rest
      else c :: cleanAux (k + 1) rest
    else c :: cleanAux 0 rest

/-- `cleanExcessiveLineBreaks(text)` of `transformers.js`:
`text.replace(newline-run regex, two newlines)` globally. -/
def cleanExcessiveLineBreaks (text : String) : String :=
  ⟨cleanAux 0 text.data⟩

/-- The heading test of `ensureMarkdownSpacing`: one to six hashes followed
by one whitespace character, at the start of the trimmed line. -/
def mdHeading (trimmed : String) : Bool :=
  let n := (trimmed.data.takeWhile (· == '#')).length
  decide (1 ≤ n ∧ n ≤ 6) &&
    (match trimmed.data.drop n with
     | c :: _ => c.isWhitespace
     | [] => false)

/-- The list-item test of `ensureMarkdownSpacing`: a dash or star followed
by whitespace, or digits followed by a dot and whitespace. -/
def mdListItem (trimmed : String) : Bool :=
  (match trimmed.data with
   | c :: d :: _ => (c == '-' || c == '*') && d.isWhitespace
   | _ => false) ||
  (match dropDigits1 trimmed.data with
   | some ('.' :: c :: _) => c.isWhitespace
   | _ => false)

/-- The loop of `ensureMarkdownSpacing`, carrying the previous original
line (`''` before the first line, as in the JS): insert a blank line
before a heading, a first list item or a fence marker unless the previous
line is blank, a frontmatter delimiter, an HTML comment or another fence
marker, and insert a blank line after a heading whose next line is
non-blank. -/
def ensureLines : List String → String → List String
  | [], _ => []
  | l :: rest, prev =>
    let trimmed := jsTrim l
    let prevTrimmed := jsTrim prev
    let isHeading := mdHeading trimmed
    let isListStart := mdListItem trimmed && !(mdListItem prevTrimmed) && prevTrimmed != ""
    let isCB := jsStartsWith trimmed "```"
    let prevIsCB := jsStartsWith prevTrimmed "```"
    let needs := (isHeading || isListStart || isCB) && prevTrimmed != "" &&
      !(jsStartsWith prevTrimmed "---") && !(jsStartsWith prevTrimmed "<!--") && !prevIsCB
    let next := match rest with
      | [] => ""
      | n :: _ => n
    (if needs then [""] else []) ++ [l] ++
      (if isHeading && jsTrim next != "" then [""] else []) ++ ensureLines rest l

/-- `ensureMarkdownSpacing(text)` of `transformers.js` (identical in the
monolithic script). -/
def ensureMarkdownSpacing (text : String) : String :=
  jsJoin "\n" (ensureLines (jsSplitLines text) "")

end Smyp

namespace Smyp

/-! ## Claim-statement helpers -/

/-- Number of user-turn-opener lines whose captured payload is not an
ignored continuation prompt, the count `k` of the turn-count invariant
(spec section 8).  The opener test and payload capture mirror the
classifier in `parseContent`. -/
def countUserOpeners (content uid : String) : Nat :=
  ((jsSplitLines content).filter (fun l =>
    jsStartsWith l (uid ++ ":") &&
      !(isIgnoredPrompt (jsTrim (jsDrop l (uid ++ ":").length))))).length

/-! ## Claims -/

/-- Claim C2 (confirmed): whenever the input contains the processed marker
and `force` is false, `processContent` returns its input byte-identical; the
downstream pipeline is skipped entirely, i.e. the result does not depend on
the `core` continuation at all. -/
theorem c2_gate_returns_input (core : String → String) (content : String)
    (h : isAlreadyProcessed content = true) :
    processContent core content false = content := by
  simp [processContent, h]

/-- Witness for C2 at a concrete marked input and a concrete pipeline. -/
theorem c2_gate_returns_input_witness :
    isAlreadyProcessed "x <!-- formatted-chat-session --> y" = true ∧
      processContent (fun _ => "PIPELINE OUTPUT") "x <!-- formatted-chat-session --> y" false =
        "x <!-- formatted-chat-session --> y" :=
  ⟨rfl, c2_gate_returns_input (fun _ => "PIPELINE OUTPUT") _ rfl⟩

/-- Claim C1 (code bug): the fused body does not preserve the encounter
order of segments.  On the segmenter output for this five-line session the
group after the prompt is encountered as response "one", response "two",
the Read action, response "Done.", yet `flushAgentContent` alternates the
two pending lists and emits the placeholder right after "one".  The claimed
(and commented, "in the order they appeared") body would be
`["one", "two", placeholder 0, "Done."]`. -/
theorem c1_interleaving_reordered :
    mergeSections (parseContent
        "alice: hi\nGitHub Copilot: one\nGitHub Copilot: two\nRead [](file:///a)\nDone."
        "alice") =
      [.mk "user-prompt" ["hi"] [] [] "hi",
       .mk "agent-response" ["one", placeholderString 0, "two", "Done."] []
         [.mk "agent-action" ["Read [](file:///a)"] ["Read [](file:///a)"] []
           "Read [](file:///a)"] ""] ∧
    ["one", placeholderString 0, "two", "Done."] ≠
      ["one", "two", placeholderString 0, "Done."] :=
  ⟨rfl, by decide⟩

/-- Claim C3 (code bug): a non-empty trailing action sequence is dropped at
end of input.  The final line is a recognized tool-action opener, the
segmenter ends in the in-action state with one accumulated action line, yet
the end-of-input flush tests `content.length` (empty for an accumulating
action section) and emits nothing: the output ends with the agent response,
no `agent-action` section at all. -/
theorem c3_trailing_action_dropped :
    parseContent "GitHub Copilot: hi\nRead [](file:///a)" "alice" =
      [.mk "agent-response" ["hi"] [] [] "hi"] ∧
    isActionLine "Read [](file:///a)" = true :=
  ⟨rfl, rfl⟩

/-- Claim C6 (code bug): the turn-count invariant fails.  This input has
exactly one non-ignored user-turn-opener line, but because a tool-action
opener immediately follows the prompt, the segmenter discards the open
`user-prompt` section (the action branch only closes a non-empty
`agent-response`), so the merged output contains zero user prompts. -/
theorem c6_turn_count_violated :
    countUserOpeners "alice: hi\nRead [](file:///a)\nDone." "alice" = 1 ∧
      (mergeSections (parseContent "alice: hi\nRead [](file:///a)\nDone." "alice")).countP
        (fun s => s.type == "user-prompt") = 0 :=
  ⟨rfl, rfl⟩

/-- A document of exactly the shape the formatter itself generates: the
frontmatter produced by `generateFrontmatter`, whose closing `---` line is
immediately followed by the processed-marker comment, then a session body. -/
def generatedDoc : String :=
  "---\ntype: chat-session\nprojectRoot: N/A\nsourceFile: stdin\nprocessedDate: 2026-01-01T00:00:00.000Z\n---\n<!-- formatted-chat-session -->\n\nalice: hi\nGitHub Copilot: hello\n"

/-- Claim C9 (code bug): on a document the formatter itself generated,
force-reprocessing does not strip the leading frontmatter.  The strip regex
demands the closing `---` be followed by a blank line, but
`generateFrontmatter` puts the processed-marker comment right after the
closing `---`, so the replace matches nothing and the core receives the
document with its frontmatter intact. -/
theorem c9_frontmatter_not_stripped :
    (∀ core : String → String, processContent core generatedDoc true = core generatedDoc) ∧
    isAlreadyProcessed generatedDoc = true ∧
    jsStartsWith generatedDoc "---" = true ∧
    stripLeadingFrontmatter generatedDoc = generatedDoc :=
  ⟨fun _ => rfl, rfl, rfl, rfl⟩

end Smyp

namespace Smyp

/-- Counterexample to claim C4 as stated: the modular `mergeSections` of
`scripts/lib/parsers.js` does not pass orphan segments through.  An
`unknown` section before the first prompt matches none of the three type
branches and is silently dropped: no section of type `unknown` survives. -/
theorem c4_orphan_dropped_counterexample :
    mergeSections [.mk "unknown" ["stray"] [] [] "stray",
        .mk "user-prompt" ["hi"] [] [] "hi"] =
      [.mk "user-prompt" ["hi"] [] [] "hi"] ∧
    ¬ "unknown" ∈ (mergeSections [Section.mk "unknown" ["stray"] [] [] "stray",
        Section.mk "user-prompt" ["hi"] [] [] "hi"]).map Section.type :=
  ⟨rfl, by decide⟩

/-- Claim C4 (corrected): it is the legacy merger of
`scripts/format-chat-session.js` that passes every orphan prefix (segments
before the first `user-prompt`) through unchanged, neither fused nor
dropped. -/
theorem c4_legacy_orphans_passed_through (orphans rest : List Section)
    (h : ∀ s ∈ orphans, s.type ≠ "user-prompt") :
    legacyMergeSections (orphans ++ rest) = orphans ++ legacyMergeSections rest := by
  induction orphans with
  | nil => rfl
  | cons s t ih =>
    have hs : (s.type == "user-prompt") = false := by
      simpa using h s (List.mem_cons_self ..)
    have ht := ih (fun x hx => h x (List.mem_cons_of_mem _ hx))
    simp only [legacyMergeSections, List.cons_append, legacyGo, hs, Bool.false_eq_true,
      if_false] at *
    exact congrArg (s :: ·) ht

/-- Witness for C4 at a concrete orphan prefix. -/
theorem c4_legacy_orphans_passed_through_witness :
    (∀ s ∈ [Section.mk "unknown" ["stray"] [] [] "stray"], s.type ≠ "user-prompt") ∧
      legacyMergeSections ([Section.mk "unknown" ["stray"] [] [] "stray"] ++
          [Section.mk "user-prompt" ["hi"] [] [] "hi"]) =
        [Section.mk "unknown" ["stray"] [] [] "stray"] ++
          legacyMergeSections [Section.mk "user-prompt" ["hi"] [] [] "hi"] :=
  ⟨by decide, c4_legacy_orphans_passed_through _ _ (by decide)⟩

end Smyp

namespace Smyp

/-! ## Fence safety of the line transformers (claim C5) -/

/-- The fence state with which `transformLines` *enters* line `i` of the
line list, starting from state `b` (the toggle for line `i` itself has not
yet been applied). -/
def fenceStateAt (b : Bool) : List String → Nat → Bool
  | _, 0 => b
  | [], _ + 1 => b
  | l :: rest, i + 1 => fenceStateAt (fenceToggle b l) rest i

/-- A transformer that never touches a line presented with
`inCodeBlock = true`. -/
def fenceIdentity (f : String → LineContext → String) : Prop :=
  ∀ l ctx, ctx.inCodeBlock = true → f l ctx = l

/-- Heading demotion is skipped inside code blocks. -/
theorem shiftHeadingLevel_fenceIdentity : fenceIdentity shiftHeadingLevel := by
  intro l ctx h
  simp [shiftHeadingLevel, h]

/-- Forced line-break insertion is skipped inside code blocks. -/
theorem addLineBreak_fenceIdentity : fenceIdentity addLineBreak := by
  intro l ctx h
  simp [addLineBreak, h]

/-- Folding fence-respecting transformers over a line in fenced context
leaves the line unchanged. -/
theorem foldl_fenceIdentity (fs : List (String → LineContext → String))
    (h : ∀ f ∈ fs, fenceIdentity f) (l : String) (ctx : LineContext)
    (hctx : ctx.inCodeBlock = true) :
    fs.foldl (fun acc f => f acc ctx) l = l := by
  induction fs generalizing l with
  | nil => rfl
  | cons f t ih =>
    have hf := h f (List.mem_cons_self ..) l ctx hctx
    simpa [hf] using ih (fun g hg => h g (List.mem_cons_of_mem _ hg)) l

/-- `transformLines` is a one-to-one map over the lines: the number of
lines is always preserved. -/
theorem transformLinesList_length (fs : List (String → LineContext → String)) :
    ∀ (ls : List String) (idx : Nat) (prev : String) (b : Bool),
      (transformLinesList fs ls idx prev b).length = ls.length := by
  intro ls
  induction ls with
  | nil => intro idx prev b; rfl
  | cons l rest ih =>
    intro idx prev b
    simp [transformLinesList, ih]

/-- A line entered in fence state `true` that is not itself a fence marker
is emitted unchanged by `transformLines` when every transformer respects
fences. -/
theorem transformLinesList_inside_fence (fs : List (String → LineContext → String))
    (hfs : ∀ f ∈ fs, fenceIdentity f) :
    ∀ (ls : List String) (i idx : Nat) (prev : String) (b : Bool) (l : String),
      ls[i]? = some l → fenceStateAt b ls i = true →
      jsStartsWith (jsTrim l) "```" = false →
      (transformLinesList fs ls idx prev b)[i]? = some l := by
  intro ls
  induction ls with
  | nil => intro i idx prev b l hl; simp at hl
  | cons x rest ih =>
    intro i idx prev b l hl hin hm
    cases i with
    | zero =>
      obtain rfl : x = l := by simpa using hl
      have hb : b = true := hin
      have htog : fenceToggle b x = true := by
        simp [fenceToggle, hm, hb]
      simp only [transformLinesList, List.getElem?_cons_zero, Option.some.injEq]
      exact foldl_fenceIdentity fs hfs x _ htog
    | succ j =>
      simp only [List.getElem?_cons_succ] at hl
      have hin' : fenceStateAt (fenceToggle b x) rest j = true := hin
      simpa [transformLinesList] using
        ih j (idx + 1) x (fenceToggle b x) l hl hin' hm

/-- Counterexample to claim C5 as stated: three of the named transforms
alter fenced content.  Blank-line compaction deletes fenced blank lines
(lines 1 to 3 lie strictly between the markers, yet the region shrinks
from three blank lines to one); trailing-space normalization strips a
trailing space from a fenced code line; structural spacing inserts blank
lines around a heading-shaped fenced line. -/
theorem c5_compaction_alters_fenced_counterexample :
    jsSplitLines "```\n\n\n\n```" = ["```", "", "", "", "```"] ∧
    fenceStateAt false (jsSplitLines "```\n\n\n\n```") 2 = true ∧
    jsStartsWith (jsTrim "") "```" = false ∧
    cleanExcessiveLineBreaks "```\n\n\n\n```" = "```\n\n```" ∧
    jsSplitLines (cleanExcessiveLineBreaks "```\n\n\n\n```") = ["```", "", "```"] ∧
    removeTrailingSpaces "```\ncode \n```" = "```\ncode\n```" ∧
    ensureMarkdownSpacing "```\nfoo\n# x\n```" = "```\nfoo\n\n# x\n\n\n```" :=
  ⟨rfl, rfl, rfl, rfl, rfl, rfl, rfl⟩

/-- Claim C5 (corrected): of the transforms named by the claim, exactly the
two fence-guarded ones — heading shift (`shiftHeadingLevels`) and forced
line-break insertion (`forceLineBreaks`) — never alter a line lying
strictly inside a fence, and never insert or remove lines.  (Blank-line
compaction, trailing-space normalization and structural spacing have no
fence guard; see the counterexample.)  Line `i` of `text`, entered in fence
state `true` and not itself a fence marker, survives both transforms
character-identical, and both transforms preserve the line count. -/
theorem c5_fence_safe_transforms (text : String) (i : Nat) (l : String)
    (hl : (jsSplitLines text)[i]? = some l)
    (hin : fenceStateAt false (jsSplitLines text) i = true)
    (hm : jsStartsWith (jsTrim l) "```" = false) :
    shiftHeadingLevels text =
      jsJoin "\n" (transformLinesList [shiftHeadingLevel] (jsSplitLines text) 0 "" false) ∧
    forceLineBreaks text =
      jsJoin "\n" (transformLinesList [addLineBreak] (jsSplitLines text) 0 "" false) ∧
    (transformLinesList [shiftHeadingLevel] (jsSplitLines text) 0 "" false)[i]? = some l ∧
    (transformLinesList [addLineBreak] (jsSplitLines text) 0 "" false)[i]? = some l ∧
    (transformLinesList [shiftHeadingLevel] (jsSplitLines text) 0 "" false).length =
      (jsSplitLines text).length ∧
    (transformLinesList [addLineBreak] (jsSplitLines text) 0 "" false).length =
      (jsSplitLines text).length := by
  refine ⟨rfl, rfl, ?_, ?_, ?_, ?_⟩
  · exact transformLinesList_inside_fence _ (by simpa using shiftHeadingLevel_fenceIdentity)
      _ i 0 "" false l hl hin hm
  · exact transformLinesList_inside_fence _ (by simpa using addLineBreak_fenceIdentity)
      _ i 0 "" false l hl hin hm
  · exact transformLinesList_length _ _ 0 "" false
  · exact transformLinesList_length _ _ 0 "" false

/-- Witness for C5: line 1 of a three-line fenced document. -/
theorem c5_fence_safe_transforms_witness :
    (jsSplitLines "```\n# fenced heading\n```")[1]? = some "# fenced heading" ∧
    fenceStateAt false (jsSplitLines "```\n# fenced heading\n```") 1 = true ∧
    jsStartsWith (jsTrim "# fenced heading") "```" = false ∧
    (transformLinesList [shiftHeadingLevel] (jsSplitLines "```\n# fenced heading\n```")
        0 "" false)[1]? = some "# fenced heading" :=
  ⟨rfl, rfl, rfl,
    (c5_fence_safe_transforms "```\n# fenced heading\n```" 1 "# fenced heading"
      rfl rfl rfl).2.2.1⟩

end Smyp

namespace Smyp

/-! ## Newline-run behaviour of the blank-line compaction (claim C8) -/

/-- The scanner state of `cleanAux` after reading `l` starting from state
`k`: the number of newline characters immediately preceding the read head. -/
def runState (k : Nat) (l : List Char) : Nat :=
  l.foldl (fun k c => if c = '\n' then k + 1 else 0) k

/-- The compaction scanner distributes over append via the run state. -/
theorem cleanAux_append (xs : List Char) :
    ∀ (k : Nat) (ys : List Char),
      cleanAux k (xs ++ ys) = cleanAux k xs ++ cleanAux (runState k xs) ys := by
  induction xs with
  | nil => intro k ys; rfl
  | cons c t ih =>
    intro k ys
    by_cases hc : c = '\n'
    · subst hc
      by_cases hk : k ≥ 2
      · simp [cleanAux, hk, runState, ih]
      · simp [cleanAux, hk, runState, ih]
    · simp [cleanAux, hc, runState, ih]

/-- The scanner state is irrelevant when the next character is not a
newline. -/
theorem cleanAux_head_notNl (k : Nat) (b : List Char) (hb : b.head? ≠ some '\n') :
    cleanAux k b = cleanAux 0 b := by
  cases b with
  | nil => rfl
  | cons c t =>
    have hc : ¬ c = '\n' := by simpa using hb
    simp [cleanAux, hc]

/-- Scanning a newline run of length `n` from state `k` keeps
`min n (2 - k)` of its newlines. -/
theorem cleanAux_replicate (n : Nat) :
    ∀ (k : Nat) (b : List Char), b.head? ≠ some '\n' →
      cleanAux k (List.replicate n '\n' ++ b) =
        List.replicate (min n (2 - k)) '\n' ++ cleanAux 0 b := by
  induction n with
  | zero =>
    intro k b hb
    simpa using cleanAux_head_notNl k b hb
  | succ n ih =>
    intro k b hb
    by_cases hk : k ≥ 2
    · have h2 : 2 - k = 0 := by omega
      have h2' : 2 - (k + 1) = 0 := by omega
      simpa [cleanAux, hk, h2, h2'] using ih (k + 1) b hb
    · have hmin : min (n + 1) (2 - k) = min n (2 - (k + 1)) + 1 := by omega
      simp [cleanAux, hk, ih (k + 1) b hb, hmin, List.replicate_succ]

/-- Counterexample to claim C8 as stated: this document's only run of
consecutive blank lines has length two (line 1 and line 2), which the claim
says is left unchanged, yet the compaction rewrites the document (a run of
three newline characters is already collapsed to two): the two blank lines
become one. -/
theorem c8_short_blank_run_changed_counterexample :
    jsSplitLines "a\n\n\nb" = ["a", "", "", "b"] ∧
    cleanExcessiveLineBreaks "a\n\n\nb" = "a\n\nb" ∧
    jsSplitLines "a\n\nb" = ["a", "", "b"] ∧
    "a\n\nb" ≠ "a\n\n\nb" :=
  ⟨rfl, rfl, rfl, by decide⟩

/-- Claim C8 (corrected): the compaction works on newline *characters*, not
blank lines: every maximal run of `n ≥ 3` newline characters (that is, two
or more consecutive blank lines) collapses to exactly two newlines (one
blank line), and runs of at most two newlines are unchanged — uniformly,
the run keeps `min n 2` newlines.  `runState 0 a = 0` says `a` is empty or
ends in a non-newline, and the head condition on `b` says the run of `n`
newlines between them is maximal. -/
theorem c8_newline_run_collapse (a b : List Char) (n : Nat)
    (ha : runState 0 a = 0) (hb : b.head? ≠ some '\n') :
    cleanExcessiveLineBreaks ⟨a ++ List.replicate n '\n' ++ b⟩ =
      ⟨cleanAux 0 a ++ List.replicate (min n 2) '\n' ++ cleanAux 0 b⟩ := by
  apply congrArg String.mk
  rw [List.append_assoc, cleanAux_append, ha, cleanAux_replicate n 0 b hb]
  simp

/-- Witness for C8 at a run of five newlines between two letters. -/
theorem c8_newline_run_collapse_witness :
    runState 0 "a".data = 0 ∧ ("b".data.head? ≠ some '\n') ∧
      cleanExcessiveLineBreaks ⟨"a".data ++ List.replicate 5 '\n' ++ "b".data⟩ =
        ⟨cleanAux 0 "a".data ++ List.replicate (min 5 2) '\n' ++ cleanAux 0 "b".data⟩ :=
  ⟨by decide, by decide, c8_newline_run_collapse "a".data "b".data 5 (by decide) (by decide)⟩

end Smyp

namespace Smyp

/-! ## Placeholder density of the fused body (claim C7) -/

/-- Every placeholder string starts with an underscore, whatever the
index. -/
theorem placeholderString_head (j : Nat) : (placeholderString j).data.head? = some '_' :=
  rfl

/-- A string whose first character is not an underscore is no placeholder. -/
theorem ne_placeholderString (s : String) (hs : s.data.head? ≠ some '_') (j : Nat) :
    s ≠ placeholderString j := by
  intro h
  exact hs (by rw [h]; exact placeholderString_head j)

/-- The shape every fused `agent-response` has: its body is some list of
non-placeholder text chunks interleaved with the placeholders
`0 .. actions.length - 1`, each exactly once, in increasing order. -/
def placeholderDense (x : Section) : Prop :=
  x.type = "agent-response" →
    ∃ texts : List String,
      x.content = interleave texts (placeholders x.actions.length) ∧
      ∀ t ∈ texts, ∀ j : Nat, t ≠ placeholderString j

/-- `flushAgentContent` only adds sections of the dense shape, provided the
pending texts are not placeholder-shaped. -/
theorem flushAgentContent_dense (merged : List Section) (ac : List String)
    (aa : List Section) (hm : ∀ x ∈ merged, placeholderDense x)
    (hac : ∀ t ∈ ac, ∀ j : Nat, t ≠ placeholderString j) :
    ∀ x ∈ flushAgentContent merged ac aa, placeholderDense x := by
  intro x hx
  unfold flushAgentContent at hx
  split at hx
  · exact hm x hx
  · rcases List.mem_append.1 hx with h | h
    · exact hm x h
    · simp only [List.mem_singleton] at h
      subst h
      exact fun _ => ⟨ac, rfl, hac⟩

/-- Invariant of the modular merge loop: if all already-merged sections are
dense and no pending text is placeholder-shaped, every section of the final
output is dense. -/
theorem mergeGo_dense :
    ∀ (sections merged : List Section) (ac : List String) (aa : List Section),
      (∀ s ∈ sections, s.type = "agent-response" → ∀ j : Nat, textOf s ≠ placeholderString j) →
      (∀ x ∈ merged, placeholderDense x) →
      (∀ t ∈ ac, ∀ j : Nat, t ≠ placeholderString j) →
      ∀ x ∈ mergeGo sections merged ac aa, placeholderDense x := by
  intro sections
  induction sections with
  | nil =>
    intro merged ac aa _ hm hac
    exact flushAgentContent_dense merged ac aa hm hac
  | cons s rest ih =>
    intro merged ac aa h hm hac
    have hrest : ∀ s' ∈ rest, s'.type = "agent-response" →
        ∀ j : Nat, textOf s' ≠ placeholderString j :=
      fun s' hs' => h s' (List.mem_cons_of_mem _ hs')
    by_cases hup : s.type = "user-prompt"
    · have hm' : ∀ x ∈ flushAgentContent merged ac aa ++ [s], placeholderDense x := by
        intro x hx
        rcases List.mem_append.1 hx with hx | hx
        · exact flushAgentContent_dense merged ac aa hm hac x hx
        · simp only [List.mem_singleton] at hx
          subst hx
          intro habs
          exact absurd (hup ▸ habs) (by decide)
      simpa [mergeGo, hup] using ih (flushAgentContent merged ac aa ++ [s]) [] [] hrest hm'
        (by simp)
    · by_cases har : s.type = "agent-response"
      · have hac' : ∀ t ∈ ac ++ [textOf s], ∀ j : Nat, t ≠ placeholderString j := by
          intro t ht
          rcases List.mem_append.1 ht with ht | ht
          · exact hac t ht
          · simp only [List.mem_singleton] at ht
            subst ht
            exact h s (List.mem_cons_self ..) har
        simpa [mergeGo, hup, har] using ih merged (ac ++ [textOf s]) aa hrest hm hac'
      · by_cases haa : s.type = "agent-action"
        · simpa [mergeGo, hup, har, haa] using ih merged ac (aa ++ [s]) hrest hm hac
        · simpa [mergeGo, hup, har, haa] using ih merged ac aa hrest hm hac

/-- Counterexample to claim C7 as stated: a literal placeholder-shaped line
in the original chat makes the pattern-level density false.  The agent text
chunk is the string `__ACTION_PLACEHOLDER_1__`; the fused body then
contains a placeholder-index-1 entry although the fused actions list has
length 1 (so the claim allows index 0 only). -/
theorem c7_placeholder_collision_counterexample :
    mergeSections (parseContent
        "alice: hi\nGitHub Copilot: __ACTION_PLACEHOLDER_1__\nRead [](file:///a)\nDone."
        "alice") =
      [.mk "user-prompt" ["hi"] [] [] "hi",
       .mk "agent-response" [placeholderString 1, placeholderString 0, "Done."] []
         [.mk "agent-action" ["Read [](file:///a)"] ["Read [](file:///a)"] []
           "Read [](file:///a)"] ""] ∧
    [placeholderString 1, placeholderString 0, "Done."].count (placeholderString 1) = 1 ∧
    [Section.mk "agent-action" ["Read [](file:///a)"] ["Read [](file:///a)"] []
        "Read [](file:///a)"].length = 1 :=
  ⟨rfl, by decide, rfl⟩

/-- Claim C7 (corrected): provided no source `agent-response` text chunk is
itself a literal placeholder-shaped string, every fused `agent-response`
built by the modular merger has a dense body: non-placeholder texts
interleaved with exactly the placeholders `0 .. actions.length - 1`, each
appearing exactly once, placeholder `i` at the position reserving the
`i`-th action. -/
theorem c7_placeholder_density (sections : List Section)
    (h : ∀ s ∈ sections, s.type = "agent-response" →
      ∀ j : Nat, textOf s ≠ placeholderString j) :
    ∀ fused ∈ mergeSections sections, fused.type = "agent-response" →
      ∃ texts : List String,
        fused.content = interleave texts (placeholders fused.actions.length) ∧
        ∀ t ∈ texts, ∀ j : Nat, t ≠ placeholderString j :=
  fun fused hf => mergeGo_dense sections [] [] [] h (by simp) (by simp) fused hf

/-- Witness for C7 on a one-turn session with one action. -/
theorem c7_placeholder_density_witness :
    (∀ s ∈ [Section.mk "user-prompt" ["hi"] [] [] "hi",
        Section.mk "agent-response" ["hello"] [] [] "hello",
        Section.mk "agent-action" ["Made changes."] ["Made changes."] [] "Made changes."],
      s.type = "agent-response" → ∀ j : Nat, textOf s ≠ placeholderString j) ∧
    (∃ texts : List String,
      (Section.mk "agent-response" ["hello", placeholderString 0] []
          [Section.mk "agent-action" ["Made changes."] ["Made changes."] [] "Made changes."]
          "").content =
        interleave texts (placeholders
          (Section.mk "agent-response" ["hello", placeholderString 0] []
            [Section.mk "agent-action" ["Made changes."] ["Made changes."] [] "Made changes."]
            "").actions.length) ∧
      ∀ t ∈ texts, ∀ j : Nat, t ≠ placeholderString j) := by
  have hhyp : ∀ s ∈ [Section.mk "user-prompt" ["hi"] [] [] "hi",
      Section.mk "agent-response" ["hello"] [] [] "hello",
      Section.mk "agent-action" ["Made changes."] ["Made changes."] [] "Made changes."],
      s.type = "agent-response" → ∀ j : Nat, textOf s ≠ placeholderString j := by
    intro s hs
    simp only [List.mem_cons] at hs
    rcases hs with rfl | rfl | rfl | h
    · intro habs; exact absurd habs (by decide)
    · intro _ j
      exact ne_placeholderString _ (by decide) j
    · intro habs; exact absurd habs (by decide)
    · exact absurd h (List.not_mem_nil _)
  refine ⟨hhyp, ?_⟩
  exact c7_placeholder_density _ hhyp
    (Section.mk "agent-response" ["hello", placeholderString 0] []
      [Section.mk "agent-action" ["Made changes."] ["Made changes."] [] "Made changes."] "")
    (by exact List.mem_cons_of_mem _ (List.mem_cons_self ..))
    rfl

end Smyp

namespace Smyp

/-! ## Extensional comparison of the two mergers (claim C10) -/

/-- Response texts of a group, in order, as the modular merger accumulates
them into `state.agentContent`. -/
def respTexts (g : List Section) : List String :=
  (g.filter (fun s => s.type == "agent-response")).map textOf

/-- Action sections of a group, in order, as both mergers accumulate them. -/
def actsOf (g : List Section) : List Section :=
  g.filter (fun s => s.type == "agent-action")

/-- A group that strictly alternates response, action, response, action,
... beginning with a response (possibly empty, possibly ending on either
kind). -/
inductive AltGroup : List Section → Prop where
  | nil : AltGroup []
  | single (r : Section) : r.type = "agent-response" → AltGroup [r]
  | pair (r a : Section) (t : List Section) :
      r.type = "agent-response" → a.type = "agent-action" → AltGroup t →
      AltGroup (r :: a :: t)

/-- A section list on which the two mergers agree: a sequence of turns,
each a `user-prompt` followed by an alternating group, with nothing before
the first prompt. -/
inductive MergeAligned : List Section → Prop where
  | nil : MergeAligned []
  | turn (u : Section) (g rest : List Section) :
      u.type = "user-prompt" → AltGroup g → MergeAligned rest →
      MergeAligned (u :: (g ++ rest))

/-- Unfolding `respTexts` over a leading response. -/
theorem respTexts_cons_resp (r : Section) (g : List Section)
    (hr : r.type = "agent-response") : respTexts (r :: g) = textOf r :: respTexts g := by
  simp [respTexts, List.filter_cons, hr]

/-- Unfolding `respTexts` over a leading action. -/
theorem respTexts_cons_act (a : Section) (g : List Section)
    (ha : a.type = "agent-action") : respTexts (a :: g) = respTexts g := by
  have : (a.type == "agent-response") = false := by simp [ha]
  simp [respTexts, List.filter_cons, this]

/-- Unfolding `actsOf` over a leading response. -/
theorem actsOf_cons_resp (r : Section) (g : List Section)
    (hr : r.type = "agent-response") : actsOf (r :: g) = actsOf g := by
  have : (r.type == "agent-action") = false := by simp [hr]
  simp [actsOf, List.filter_cons, this]

/-- Unfolding `actsOf` over a leading action. -/
theorem actsOf_cons_act (a : Section) (g : List Section)
    (ha : a.type = "agent-action") : actsOf (a :: g) = a :: actsOf g := by
  simp [actsOf, List.filter_cons, ha]

/-- Unfolding `legacyBody` over a leading response. -/
theorem legacyBody_cons_resp (r : Section) (g : List Section) (k : Nat)
    (hr : r.type = "agent-response") :
    legacyBody (r :: g) k = textOf r :: legacyBody g k := by
  simp [legacyBody, hr]

/-- Unfolding `legacyBody` over a leading action. -/
theorem legacyBody_cons_act (a : Section) (g : List Section) (k : Nat)
    (ha : a.type = "agent-action") :
    legacyBody (a :: g) k = placeholderString k :: legacyBody g (k + 1) := by
  have h1 : (a.type == "agent-response") = false := by simp [ha]
  simp [legacyBody, h1, ha]

/-- Members of an alternating group are responses or actions. -/
theorem AltGroup.types {g : List Section} (hg : AltGroup g) :
    ∀ s ∈ g, s.type = "agent-response" ∨ s.type = "agent-action" := by
  induction hg with
  | nil => intro s hs; exact absurd hs (List.not_mem_nil _)
  | single r hr =>
    intro s hs
    simp only [List.mem_singleton] at hs
    subst hs
    exact Or.inl hr
  | pair r a t hr ha _ ih =>
    intro s hs
    simp only [List.mem_cons] at hs
    rcases hs with rfl | rfl | hs
    · exact Or.inl hr
    · exact Or.inr ha
    · exact ih s hs

/-- Running the modular merge loop over a block of responses and actions
just accumulates their texts and sections onto the pending state. -/
theorem mergeGo_accum (g : List Section)
    (hg : ∀ s ∈ g, s.type = "agent-response" ∨ s.type = "agent-action") :
    ∀ (rest merged : List Section) (ac : List String) (aa : List Section),
      mergeGo (g ++ rest) merged ac aa =
        mergeGo rest merged (ac ++ respTexts g) (aa ++ actsOf g) := by
  induction g with
  | nil => intro rest merged ac aa; simp [respTexts, actsOf]
  | cons s t ih =>
    intro rest merged ac aa
    have ht : ∀ x ∈ t, x.type = "agent-response" ∨ x.type = "agent-action" :=
      fun x hx => hg x (List.mem_cons_of_mem _ hx)
    rcases hg s (List.mem_cons_self ..) with hs | hs
    · have hb1 : (s.type == "user-prompt") = false := by simp [hs]
      have hb2 : (s.type == "agent-response") = true := by simp [hs]
      rw [List.cons_append]
      show mergeGo (s :: (t ++ rest)) merged ac aa = _
      rw [mergeGo, hb1, hb2]
      simp only [Bool.false_eq_true, if_false, if_true]
      rw [ih ht rest merged (ac ++ [textOf s]) aa,
        respTexts_cons_resp s t hs, actsOf_cons_resp s t hs]
      simp
    · have hb1 : (s.type == "user-prompt") = false := by simp [hs]
      have hb2 : (s.type == "agent-response") = false := by simp [hs]
      have hb3 : (s.type == "agent-action") = true := by simp [hs]
      rw [List.cons_append]
      show mergeGo (s :: (t ++ rest)) merged ac aa = _
      rw [mergeGo, hb1, hb2, hb3]
      simp only [Bool.false_eq_true, if_false, if_true]
      rw [ih ht rest merged ac (aa ++ [s]),
        respTexts_cons_act s t hs, actsOf_cons_act s t hs]
      simp
end Smyp

namespace Smyp

/-- Flushing with a non-trivial `merged` prefix just prepends it. -/
theorem flushAgentContent_front (m : List Section) (ac : List String) (aa : List Section) :
    flushAgentContent m ac aa = m ++ flushAgentContent [] ac aa := by
  unfold flushAgentContent
  split <;> simp

/-- The already-merged prefix passes through the modular merge loop
unchanged. -/
theorem mergeGo_merged_front :
    ∀ (ss merged : List Section) (ac : List String) (aa : List Section),
      mergeGo ss merged ac aa = merged ++ mergeGo ss [] ac aa := by
  intro ss
  induction ss with
  | nil =>
    intro merged ac aa
    exact flushAgentContent_front merged ac aa
  | cons s rest ih =>
    intro merged ac aa
    by_cases hup : s.type = "user-prompt"
    · have hb : (s.type == "user-prompt") = true := by simp [hup]
      rw [mergeGo, hb]
      simp only [if_true]
      rw [mergeGo, hb]
      simp only [if_true]
      rw [ih (flushAgentContent merged ac aa ++ [s]),
        ih (flushAgentContent [] ac aa ++ [s]), flushAgentContent_front merged]
      simp
    · have hb : (s.type == "user-prompt") = false := by simp [hup]
      by_cases har : s.type = "agent-response"
      · have hb2 : (s.type == "agent-response") = true := by simp [har]
        rw [mergeGo, hb, hb2]
        simp only [Bool.false_eq_true, if_false, if_true]
        rw [mergeGo, hb, hb2]
        simp only [Bool.false_eq_true, if_false, if_true]
        exact ih merged (ac ++ [textOf s]) aa
      · have hb2 : (s.type == "agent-response") = false := by simp [har]
        by_cases haa : s.type = "agent-action"
        · have hb3 : (s.type == "agent-action") = true := by simp [haa]
          rw [mergeGo, hb, hb2, hb3]
          simp only [Bool.false_eq_true, if_false, if_true]
          rw [mergeGo, hb, hb2, hb3]
          simp only [Bool.false_eq_true, if_false, if_true]
          exact ih merged ac (aa ++ [s])
        · have hb3 : (s.type == "agent-action") = false := by simp [haa]
          rw [mergeGo, hb, hb2, hb3]
          simp only [Bool.false_eq_true, if_false]
          rw [mergeGo, hb, hb2, hb3]
          simp only [Bool.false_eq_true, if_false]
          exact ih merged ac aa

/-- Running the legacy merge loop over a block of non-prompt sections in
collecting state just extends the collected group. -/
theorem legacyGo_accum (g : List Section) (hg : ∀ s ∈ g, s.type ≠ "user-prompt") :
    ∀ (rest : List Section) (u : Section) (grp : List Section),
      legacyGo (g ++ rest) (some (u, grp)) = legacyGo rest (some (u, grp ++ g)) := by
  induction g with
  | nil => intro rest u grp; simp
  | cons s t ih =>
    intro rest u grp
    have hs : (s.type == "user-prompt") = false := by
      simp [hg s (List.mem_cons_self ..)]
    have ht : ∀ x ∈ t, x.type ≠ "user-prompt" := fun x hx => hg x (List.mem_cons_of_mem _ hx)
    rw [List.cons_append]
    show legacyGo (s :: (t ++ rest)) (some (u, grp)) = _
    rw [legacyGo, hs]
    simp only [Bool.false_eq_true, if_false]
    rw [ih ht rest u (grp ++ [s])]
    simp

/-- On an alternating group the legacy encounter-order body coincides with
the alternating interleave of the modular merger; `k` generalizes the
running placeholder index. -/
theorem legacyBody_alt {g : List Section} (hg : AltGroup g) :
    ∀ k : Nat,
      legacyBody g k =
        interleave (respTexts g)
          ((List.range' k (actsOf g).length).map placeholderString) := by
  induction hg with
  | nil => intro k; rfl
  | single r hr =>
    intro k
    rw [legacyBody_cons_resp r [] k hr, respTexts_cons_resp r [] hr,
      actsOf_cons_resp r [] hr]
    rfl
  | pair r a t hr ha hat ih =>
    intro k
    rw [legacyBody_cons_resp r _ k hr, legacyBody_cons_act a _ k ha,
      respTexts_cons_resp r _ hr, respTexts_cons_act a _ ha,
      actsOf_cons_resp r _ hr, actsOf_cons_act a _ ha,
      List.length_cons, List.range'_succ, List.map_cons, interleave, ih (k + 1)]

/-- On an alternating group, flushing the accumulated state after the
prompt emits exactly what the legacy merger emits for that turn. -/
theorem flush_eq_legacyEmit (u : Section) {g : List Section} (hg : AltGroup g) :
    flushAgentContent [u] (respTexts g) (actsOf g) = legacyEmit u g := by
  have hbody := legacyBody_alt hg 0
  rw [← List.range_eq_range'] at hbody
  cases hg with
  | nil => rfl
  | single r hr =>
    rw [respTexts_cons_resp r [] hr, actsOf_cons_resp r [] hr] at hbody ⊢
    unfold flushAgentContent legacyEmit
    rw [if_neg (by simp), if_neg (by simp)]
    unfold fusedSection legacyFused placeholders
    rw [← hbody]
    have : (r.type == "agent-action") = false := by simp [hr]
    simp [actsOf, List.filter_cons, this]
  | pair r a t hr ha hat =>
    rw [respTexts_cons_resp r _ hr, respTexts_cons_act a _ ha] at hbody ⊢
    rw [actsOf_cons_resp r _ hr, actsOf_cons_act a _ ha] at hbody ⊢
    unfold flushAgentContent legacyEmit
    rw [if_neg (by simp), if_neg (by simp)]
    unfold fusedSection legacyFused placeholders
    rw [← hbody]
    have hfix : List.filter (fun s => s.type == "agent-action") (r :: a :: t) =
        a :: actsOf t := by
      show actsOf (r :: a :: t) = a :: actsOf t
      rw [actsOf_cons_resp r _ hr, actsOf_cons_act a _ ha]
    rw [hfix]
    rfl

end Smyp

namespace Smyp

/-- Claim C10 (corrected): the two mergers agree on every aligned section
list — nothing before the first `user-prompt`, and the sections between
consecutive prompts strictly alternating response, action, response, ...
starting with a response.  On general section lists they differ: the
modular merger re-interleaves bodies and treats orphans differently (see
the counterexample). -/
theorem c10_mergers_agree_on_aligned (ss : List Section) (hss : MergeAligned ss) :
    legacyMergeSections ss = mergeSections ss := by
  induction hss with
  | nil => rfl
  | turn u g rest hu hg hrest ih =>
    have hgt := AltGroup.types hg
    have hgnu : ∀ s ∈ g, s.type ≠ "user-prompt" := by
      intro s hs
      rcases hgt s hs with h | h <;> rw [h] <;> decide
    have hub : (u.type == "user-prompt") = true := by simp [hu]
    have hleg : legacyMergeSections (u :: (g ++ rest)) = legacyGo rest (some (u, g)) := by
      unfold legacyMergeSections
      rw [legacyGo, hub]
      simp only [if_true]
      rw [legacyGo_accum g hgnu rest u []]
      simp
    have hlib : mergeSections (u :: (g ++ rest)) =
        mergeGo rest [u] (respTexts g) (actsOf g) := by
      unfold mergeSections
      rw [mergeGo, hub]
      simp only [if_true]
      rw [mergeGo_accum g hgt rest (flushAgentContent [] [] [] ++ [u]) [] []]
      simp [flushAgentContent]
    rw [hleg, hlib]
    cases hrest with
    | nil => exact (flush_eq_legacyEmit u hg).symm
    | turn u' g' rest' hu2 hg2 hrest2 =>
      have hub2 : (u'.type == "user-prompt") = true := by simp [hu2]
      rw [legacyGo, hub2]
      simp only [if_true]
      rw [mergeGo, hub2]
      simp only [if_true]
      rw [mergeGo_merged_front (g' ++ rest')
        (flushAgentContent [u] (respTexts g) (actsOf g) ++ [u'])]
      have hrest_lib : mergeSections (u' :: (g' ++ rest')) =
          [u'] ++ mergeGo (g' ++ rest') [] [] [] := by
        unfold mergeSections
        rw [mergeGo, hub2]
        simp only [if_true]
        rw [mergeGo_merged_front (g' ++ rest') (flushAgentContent [] [] [] ++ [u'])]
        simp [flushAgentContent]
      have hrest_leg : legacyMergeSections (u' :: (g' ++ rest')) =
          legacyGo (g' ++ rest') (some (u', [])) := by
        unfold legacyMergeSections
        rw [legacyGo, hub2]
        simp only [if_true]
      rw [hrest_leg] at ih
      rw [ih, hrest_lib, flush_eq_legacyEmit u hg]
      simp

/-- Counterexample to claim C10 as stated: on a turn whose group starts
with an action, the legacy merger keeps the encounter order
(placeholder first), while the modular merger emits the response text
first.  The two merged outputs differ in the fused body. -/
theorem c10_mergers_differ_counterexample :
    (legacyMergeSections
        [Section.mk "user-prompt" ["hi"] [] [] "hi",
         Section.mk "agent-action" ["Made changes."] ["Made changes."] [] "Made changes.",
         Section.mk "agent-response" ["ok"] [] [] "ok"]).map Section.content =
      [["hi"], [placeholderString 0, "ok"]] ∧
    (mergeSections
        [Section.mk "user-prompt" ["hi"] [] [] "hi",
         Section.mk "agent-action" ["Made changes."] ["Made changes."] [] "Made changes.",
         Section.mk "agent-response" ["ok"] [] [] "ok"]).map Section.content =
      [["hi"], ["ok", placeholderString 0]] ∧
    ([["hi"], [placeholderString 0, "ok"]] : List (List String)) ≠
      [["hi"], ["ok", placeholderString 0]] :=
  ⟨rfl, rfl, by decide⟩

/-- Witness for C10 on a one-turn aligned list: prompt, response, action. -/
theorem c10_mergers_agree_on_aligned_witness :
    MergeAligned
      [Section.mk "user-prompt" ["hi"] [] [] "hi",
       Section.mk "agent-response" ["ok"] [] [] "ok",
       Section.mk "agent-action" ["Made changes."] ["Made changes."] [] "Made changes."] ∧
    legacyMergeSections
        [Section.mk "user-prompt" ["hi"] [] [] "hi",
         Section.mk "agent-response" ["ok"] [] [] "ok",
         Section.mk "agent-action" ["Made changes."] ["Made changes."] [] "Made changes."] =
      mergeSections
        [Section.mk "user-prompt" ["hi"] [] [] "hi",
         Section.mk "agent-response" ["ok"] [] [] "ok",
         Section.mk "agent-action" ["Made changes."] ["Made changes."] [] "Made changes."] := by
  have hal : MergeAligned
      [Section.mk "user-prompt" ["hi"] [] [] "hi",
       Section.mk "agent-response" ["ok"] [] [] "ok",
       Section.mk "agent-action" ["Made changes."] ["Made changes."] [] "Made changes."] := by
    exact MergeAligned.turn _
      [Section.mk "agent-response" ["ok"] [] [] "ok",
       Section.mk "agent-action" ["Made changes."] ["Made changes."] [] "Made changes."]
      [] rfl
      (AltGroup.pair _ _ [] rfl rfl AltGroup.nil)
      MergeAligned.nil
  exact ⟨hal, c10_mergers_agree_on_aligned _ hal⟩

end Smyp
